import Mathlib

/-!
Verification development for the crypto price bot (src/bot.py).

The bot's handlers are shallowly embedded: the Telegram transport is
abstracted away, each outbound `reply_text`/`edit_message_text` call is
recorded as a `Rendered` value, and each `requests.get` call is replaced by
an abstract response (`Fetch`) supplied through an `Env`.  Python floats
(JSON numbers) are idealized as exact rationals; Python `dict`s parsed from
JSON are association lists.  Code that can raise an exception is embedded in
`Except PyError`.
-/

instance {e a : Type} [DecidableEq e] [DecidableEq a] : DecidableEq (Except e a) := fun x y =>
  match x, y with
  | .ok u, .ok v => if h : u = v then isTrue (by rw [h]) else isFalse (by simp [h])
  | .error u, .error v => if h : u = v then isTrue (by rw [h]) else isFalse (by simp [h])
  | .ok _, .error _ => isFalse (by simp)
  | .error _, .ok _ => isFalse (by simp)

/-- A Python runtime exception relevant to the embedded code. -/
inductive PyError
  | typeError
  | valueError
deriving DecidableEq, Repr

/-- `telegram.InlineKeyboardButton(text, callback_data=...)`. -/
structure InlineKeyboardButton where
  text : String
  callback_data : String
deriving DecidableEq, Repr

/-- One outbound message: the body text and the inline keyboard attached to
it (empty when the source passes no `reply_markup`). -/
structure Rendered where
  text : String
  keyboard : List (List InlineKeyboardButton)
deriving DecidableEq, Repr

/-- A coin object as parsed from a list endpoint: the source only ever reads
the keys `id`, `name`, `symbol` with `dict.get`, so each is an optional
string. -/
structure Coin where
  id : Option String
  name : Option String
  symbol : Option String
deriving DecidableEq, Repr

/-- A detail object as parsed from `/simple/price` for one coin: a JSON
object with numeric values, read by key with `dict.get`. -/
abbrev CoinDetail : Type := List (String × Rat)

/-- Python `d.get(k)` on a parsed JSON object. -/
def dget (d : CoinDetail) (k : String) : Option Rat :=
  (d.find? (fun kv => kv.1 == k)).map Prod.snd

/-- The outcome of one `requests.get(...)` call: a parsed body, or a
transport-level failure (`requests.RequestException`, which includes
connection errors, `raise_for_status` on a non-2xx response, and a body that
is not valid JSON). -/
inductive Fetch (α : Type)
  | ok (body : α)
  | err
deriving DecidableEq

/-- The abstract remote service: one response per request the source makes. -/
structure Env where
  marketsResponse : Fetch (List Coin)
  trendingResponse : Fetch (Option (List Coin))
  priceResponse : String → String → Fetch (List (String × CoinDetail))
  searchResponse : String → Fetch (Option (List Coin))

/-! ## Python string primitives (bot.py uses `.upper()`, `.lower()`,
`.capitalize()`, `.startswith()`, `.split(':')`) -/

/-- Python `s.upper()` (ASCII range, which covers every string the source
uppercases). -/
def pyUpper (s : String) : String := String.mk (s.data.map Char.toUpper)

/-- Python `s.lower()`. -/
def pyLower (s : String) : String := String.mk (s.data.map Char.toLower)

/-- Python `s.capitalize()`: first character uppercased, the rest
lowercased. -/
def pyCapitalize (s : String) : String :=
  match s.data with
  | [] => ""
  | c :: rest => String.mk (Char.toUpper c :: rest.map Char.toLower)

/-- Python `s.startswith(pre)`. -/
def pyStartsWith (pre s : String) : Bool := pre.data.isPrefixOf s.data

/-- Python `s.split(':')` at the character level: always yields at least one
(possibly empty) field. -/
def splitColon : List Char → List (List Char)
  | [] => [[]]
  | c :: rest =>
    match splitColon rest with
    | [] => []
    | h :: t => if c = ':' then [] :: h :: t else (c :: h) :: t

/-- Python `s.split(':')[1]`.  The source only indexes after a
`startswith` check that guarantees a colon, so the out-of-range default is
never reached there. -/
def pySplitSecond (s : String) : String := String.mk ((splitColon s.data).getD 1 [])

/-! ## Number formatting (`f"{x:,.2f}"`, `f"{x:.2f}"`, `f"{x:,.0f}"`)

Python formats a float by rounding its exact value half-to-even at the
requested number of decimals; floats are idealized here as exact rationals,
so the same rounding is applied to `q.num / q.den` using only integer
arithmetic. -/

/-- `round(q * scale)` with ties to even, computed on the numerator and
denominator. -/
def scaledRoundHalfEven (q : Rat) (scale : Nat) : Int :=
  let n : Int := q.num * scale
  let d : Int := (q.den : Int)
  let fl : Int := Int.fdiv n d
  let r : Int := n - fl * d
  if 2 * r < d then fl
  else if d < 2 * r then fl + 1
  else if fl % 2 = 0 then fl else fl + 1

/-- The decimal digit characters. -/
def decimalDigits : List Char := "0123456789".data

/-- Every character a formatted number can contain. -/
def numberChars : List Char := "0123456789.,-".data

def digitChar (k : Nat) : Char := decimalDigits.getD k '0'

/-- Most-significant-first decimal digits of `n`, with `fuel ≥ n` as a
structural bound. -/
def natDigitsAux : Nat → Nat → List Char
  | 0, _ => []
  | fuel + 1, n => if n = 0 then [] else natDigitsAux fuel (n / 10) ++ [digitChar (n % 10)]

def natDigits (n : Nat) : List Char := if n = 0 then ['0'] else natDigitsAux n n

/-- Insert `','` after every three characters of a least-significant-first
digit list. -/
def commasRev : List Char → List Char
  | a :: b :: c :: d :: rest => a :: b :: c :: ',' :: commasRev (d :: rest)
  | l => l

/-- Thousands grouping of a most-significant-first digit list. -/
def groupThousands (ds : List Char) : List Char := (commasRev ds.reverse).reverse

def padLeftZeros (k : Nat) (ds : List Char) : List Char :=
  List.replicate (k - ds.length) '0' ++ ds

/-- Python `format(q, ",.{decimals}f")` (or without the comma when
`thousandsSep` is false), over exact rationals. -/
def pyFormatFixed (decimals : Nat) (thousandsSep : Bool) (q : Rat) : List Char :=
  let scale : Nat := 10 ^ decimals
  let scaled : Int := scaledRoundHalfEven q scale
  let mag : Nat := scaled.natAbs
  let intPart : List Char := natDigits (mag / scale)
  let grouped : List Char := if thousandsSep then groupThousands intPart else intPart
  let fracPart : List Char :=
    if decimals = 0 then [] else '.' :: padLeftZeros decimals (natDigits (mag % scale))
  (if scaled < 0 then ['-'] else []) ++ grouped ++ fracPart

/-- Python `abs(x)`. -/
def pyAbs (q : Rat) : Rat := if q < 0 then -q else q

/-! ## API functions (bot.py lines 22-55) -/

/-- `get_top_cryptos(limit)`: the parsed body on success, `[]` on any
`requests.RequestException` (the `limit` only shapes the request). -/
def get_top_cryptos (limit : Nat) (response : Fetch (List Coin)) : List Coin :=
  match limit, response with
  | _, .ok body => body
  | _, .err => []

/-- `get_trending_cryptos()`: `response.json().get('coins', [])`, `[]` on
error. -/
def get_trending_cryptos (response : Fetch (Option (List Coin))) : List Coin :=
  match response with
  | .ok body => body.getD []
  | .err => []

/-- `get_crypto_details(crypto_id, currency)`: `data.get(crypto_id, {})` of
the parsed body, `{}` on error.  The currency only shapes the request. -/
def get_crypto_details (crypto_id currency : String)
    (response : Fetch (List (String × CoinDetail))) : CoinDetail :=
  match currency, response with
  | _, .ok data => ((data.find? (fun kv => kv.1 == crypto_id)).map Prod.snd).getD []
  | _, .err => []

/-! ## Menu rendering (bot.py lines 73-113) -/

def backToMainMenuButton : InlineKeyboardButton :=
  ⟨"Back to Main Menu", "main_menu"⟩

def show_main_menu : Rendered :=
  ⟨"Welcome to the Crypto Price Bot! What would you like to do?",
   [[⟨"Top 100 Cryptocurrencies", "top100"⟩],
    [⟨"Trending Cryptocurrencies", "trending"⟩],
    [⟨"Search Cryptocurrency", "search"⟩]]⟩

/-- One coin button: label `f"{name} ({symbol.upper()})"`, callback
`f"crypto:{crypto_id}"`, with the source's `dict.get` defaults. -/
def cryptoButton (crypto : Coin) : InlineKeyboardButton :=
  ⟨(crypto.name.getD "Unknown") ++ " (" ++ pyUpper (crypto.symbol.getD "Unknown") ++ ")",
   "crypto:" ++ crypto.id.getD "unknown"⟩

/-- `for i in range(0, len(cryptos), 2): cryptos[i:i+2]` — the list cut into
rows of two, the last row a singleton when the length is odd. -/
def pairRows : List Coin → List (List Coin)
  | [] => []
  | [a] => [[a]]
  | a :: b :: rest => [a, b] :: pairRows rest

/-- `show_crypto_list(cryptos, title)`: coin buttons two per row, then the
back-to-main-menu row. -/
def show_crypto_list (cryptos : List Coin) (title : String) : Rendered :=
  ⟨title, (pairRows cryptos).map (List.map cryptoButton) ++ [[backToMainMenuButton]]⟩

/-- The source's module constant `SUPPORTED_CURRENCIES`. -/
def SUPPORTED_CURRENCIES : List String :=
  ["usd", "eur", "gbp", "jpy", "aud", "cad", "chf", "cny", "inr"]

def show_currency_options : Rendered :=
  ⟨"Choose a currency:",
   SUPPORTED_CURRENCIES.map (fun currency => [⟨pyUpper currency, "currency:" ++ currency⟩])
     ++ [[backToMainMenuButton]]⟩

/-! ## Detail rendering (bot.py lines 146-165) -/

/-- The f-string of `show_crypto_details`, line 154-159, with the message
split at the three formatted numbers and the glyph. -/
def detailMsgChars (capId CUR glyph n1 n2 n3 : List Char) : List Char :=
  "💰 ".data ++ capId ++ " (".data ++ CUR ++ ")\nPrice: ".data ++ n1 ++
    " ".data ++ CUR ++ "\n24h Change: ".data ++ glyph ++ " ".data ++ n2 ++
    "%\nMarket Cap: ".data ++ n3 ++ " ".data ++ CUR

def detailNotFound (crypto_id : String) : String :=
  "Sorry, I couldn't find the details for " ++ crypto_id ++ "."

/-- `'🔺' if change_24h > 0 else '🔻' if change_24h < 0 else '➖'`. -/
def change_symbol_of (change_24h : Rat) : List Char :=
  if 0 < change_24h then ['🔺'] else if change_24h < 0 then ['🔻'] else ['➖']

/-- The message text `show_crypto_details` builds from an already-fetched
detail.  Python evaluates `change_24h > 0` first (a `TypeError` when the
field defaulted to the string `'N/A'`), then formats `price` and
`market_cap` with `:,.2f` / `:,.0f` (a `ValueError` on the string
`'N/A'`). -/
def show_crypto_details_message (crypto_id currency : String) (details : CoinDetail) :
    Except PyError String :=
  if details = [] then Except.ok (detailNotFound crypto_id)
  else
    match dget details currency, dget details (currency ++ "_24h_change"),
        dget details (currency ++ "_market_cap") with
    | _, none, _ => Except.error PyError.typeError
    | none, some _, _ => Except.error PyError.valueError
    | some _, some _, none => Except.error PyError.valueError
    | some price, some change_24h, some market_cap =>
      Except.ok (String.mk (detailMsgChars (pyCapitalize crypto_id).data
        (pyUpper currency).data (change_symbol_of change_24h)
        (pyFormatFixed 2 true price)
        (pyFormatFixed 2 false (pyAbs change_24h))
        (pyFormatFixed 0 true market_cap)))

/-- `show_crypto_details(update, context, crypto_id, currency)`: fetch, build
the message, attach the back-to-main-menu keyboard. -/
def show_crypto_details (crypto_id currency : String)
    (response : Fetch (List (String × CoinDetail))) : Except PyError Rendered :=
  (show_crypto_details_message crypto_id currency
      (get_crypto_details crypto_id currency response)).map
    (fun message => ⟨message, [[backToMainMenuButton]]⟩)

/-! ## Conversation state machine (bot.py lines 15, 58-60, 116-144, 168-185,
191-204) -/

def MAIN_MENU : Nat := 0
def CHOOSING_CRYPTO : Nat := 1
def CHOOSING_CURRENCY : Nat := 2
def TYPING_SEARCH : Nat := 3

/-- Everything `button_click` does: the value of `context.user_data['crypto']`
afterwards, the messages rendered, and the conversation state it returns
(`none` when it falls off the `elif` chain and implicitly returns `None`). -/
structure ClickResult where
  user_data_crypto : Option String
  renders : List Rendered
  next_state : Option Nat
deriving DecidableEq, Repr

def button_click (env : Env) (user_data_crypto : Option String) (data : String) :
    Except PyError ClickResult :=
  if data = "main_menu" then
    Except.ok ⟨user_data_crypto, [show_main_menu], some MAIN_MENU⟩
  else if data = "top100" then
    let cryptos := get_top_cryptos 100 env.marketsResponse
    Except.ok ⟨user_data_crypto,
      [⟨"Fetching top cryptocurrencies, please wait...", []⟩,
       show_crypto_list cryptos "Top 100 Cryptocurrencies:"], some CHOOSING_CRYPTO⟩
  else if data = "trending" then
    let cryptos := get_trending_cryptos env.trendingResponse
    Except.ok ⟨user_data_crypto,
      [⟨"Fetching trending cryptocurrencies, please wait...", []⟩,
       show_crypto_list cryptos "Trending Cryptocurrencies:"], some CHOOSING_CRYPTO⟩
  else if data = "search" then
    Except.ok ⟨user_data_crypto,
      [⟨"Please enter the name of the cryptocurrency you want to check:", []⟩],
      some TYPING_SEARCH⟩
  else if pyStartsWith "crypto:" data then
    Except.ok ⟨some (pySplitSecond data), [show_currency_options], some CHOOSING_CURRENCY⟩
  else if pyStartsWith "currency:" data then
    let currency := pySplitSecond data
    let crypto_id := user_data_crypto.getD "bitcoin"
    (show_crypto_details crypto_id currency (env.priceResponse crypto_id currency)).map
      (fun r => ⟨user_data_crypto, [r], some MAIN_MENU⟩)
  else
    Except.ok ⟨user_data_crypto, [], none⟩

/-- Per-conversation state: `context.user_data['crypto']` and the
`ConversationHandler` state. -/
structure Session where
  user_data_crypto : Option String
  state : Nat
deriving DecidableEq, Repr

/-- One callback-query update processed by the `ConversationHandler`: a
returned state replaces the current one, `None` keeps it, and a raised
exception reaches the top-level error handler, which only logs — the session
keeps its pre-failure state. -/
def convStep (env : Env) (s : Session) (data : String) : Session :=
  match button_click env s.user_data_crypto data with
  | .ok r => ⟨r.user_data_crypto, r.next_state.getD s.state⟩
  | .error _ => s

/-- `/start` (also as fallback from any state): renders the main menu and
returns `MAIN_MENU`; it touches nothing else — in particular
`context.user_data` is left as it was. -/
def start (s : Session) : Session :=
  ⟨s.user_data_crypto, MAIN_MENU⟩

structure MessageResult where
  renders : List Rendered
  next_state : Nat
deriving DecidableEq, Repr

/-- `handle_message`: free-text search.  The `try` block covers the request
and the rendering; a `requests.RequestException` takes the error branch. -/
def handle_message (env : Env) (text : String) : MessageResult :=
  let user_input := pyLower text
  match env.searchResponse user_input with
  | .ok searchJson =>
    let coins := (searchJson.getD [])
    if coins = [] then
      ⟨[⟨"Sorry, I couldn't find any cryptocurrency matching your search.", []⟩,
        show_main_menu], MAIN_MENU⟩
    else
      ⟨[show_crypto_list (coins.take 10) "Search Results:"], CHOOSING_CRYPTO⟩
  | .err =>
    ⟨[⟨"An error occurred while searching for the cryptocurrency.", []⟩,
      show_main_menu], MAIN_MENU⟩

/-! ## Counting substring occurrences (for the currency-code property) -/

/-- The number of positions of `s` at which `p` occurs (as
`str.count` counts them for the patterns used here, whose occurrences cannot
overlap). -/
def countOccs (p : List Char) : List Char → Nat
  | [] => 0
  | c :: t => (if p.isPrefixOf (c :: t) then 1 else 0) + countOccs p t

/-- `deadChunk p0 p1 m`: no occurrence of a pattern starting `p0 :: p1 :: _`
can begin inside `m`, whatever follows `m`: each position either differs
from `p0` or is followed inside `m` by a character differing from `p1`, and
the last position differs from `p0`. -/
def deadChunk (p0 p1 : Char) : List Char → Bool
  | [] => true
  | [c] => p0 != c
  | c :: d :: rest => ((p0 != c) || (p1 != d)) && deadChunk p0 p1 (d :: rest)

/-- A chunk that is dead for every pattern of two uppercase letters: each
character is not uppercase or is followed by one that is not, and the last
character is not uppercase. -/
def goodChunk : List Char → Bool
  | [] => true
  | [c] => !c.isUpper
  | c :: d :: rest => (!c.isUpper || !d.isUpper) && goodChunk (d :: rest)

/-- The characters a CoinGecko coin id is drawn from (lowercase alphanumeric
and hyphen). -/
def coinIdChars : List Char := "abcdefghijklmnopqrstuvwxyz0123456789-".data

/-! ## Concrete environments used by closed theorems -/

/-- Every request fails at the transport level. -/
def envAllErr : Env :=
  ⟨Fetch.err, Fetch.err, fun _ _ => Fetch.err, fun _ => Fetch.err⟩

/-- The detail endpoint returns a partially-populated object for `bitcoin`
(price present, 24h change and market cap absent), as `/simple/price` does
when it has no change/cap data; list endpoints succeed with an empty body. -/
def envPartialDetail : Env :=
  ⟨Fetch.ok [], Fetch.ok (some []),
   fun _ _ => Fetch.ok [("bitcoin", [("usd", (65000 : Rat))])],
   fun _ => Fetch.err⟩

/-- The characters `str.capitalize()` of a coin id can produce. -/
def capitalizedIdChars : List Char :=
  "ABCDEFGHIJKLMNOPQRSTUVWXYZabcdefghijklmnopqrstuvwxyz0123456789-".data

/-- All characters of the fixed chunks of the detail message. -/
def fixedDetailChars : List Char :=
  "💰  ()\nPrice: \n24h Change: %\nMarket Cap: ".data

/-- A fully-populated detail object for bitcoin in usd. -/
def dtlFull : CoinDetail :=
  [("usd", (65000 : Rat)), ("usd_24h_change", (-2 : Rat)), ("usd_market_cap", (1280000000000 : Rat))]

/-- A partially-populated detail: price present, 24h change and market cap
absent. -/
def dtlPartial : CoinDetail := [("usd", (65000 : Rat))]

/-- Search succeeds with zero matches; everything else fails. -/
def envSearchEmpty : Env :=
  ⟨Fetch.err, Fetch.err, fun _ _ => Fetch.err, fun _ => Fetch.ok (some [])⟩

/-! ### Lemmas about `countOccs` -/

theorem beq_false_of_upper (a b : Char) (ha : a.isUpper = true) (hb : b.isUpper = false) :
    (a == b) = false := by
  rw [beq_eq_false_iff_ne]
  intro e
  rw [e, hb] at ha
  exact Bool.false_ne_true ha

theorem countOccs_nil (p : List Char) : countOccs p [] = 0 := rfl

theorem countOccs_cons (p : List Char) (c : Char) (t : List Char) :
    countOccs p (c :: t) = (if p.isPrefixOf (c :: t) then 1 else 0) + countOccs p t := rfl

theorem deadChunk_of_goodChunk (p0 p1 : Char) (hp0 : p0.isUpper = true)
    (hp1 : p1.isUpper = true) : ∀ m, goodChunk m = true → deadChunk p0 p1 m = true
  | [], _ => rfl
  | [c], h => by
    simp only [goodChunk, Bool.not_eq_true'] at h
    simp only [deadChunk, bne, beq_false_of_upper p0 c hp0 h, Bool.not_false]
  | c :: d :: rest, h => by
    simp only [goodChunk, Bool.and_eq_true, Bool.or_eq_true, Bool.not_eq_true'] at h
    have ih := deadChunk_of_goodChunk p0 p1 hp0 hp1 (d :: rest) h.2
    simp only [deadChunk, Bool.and_eq_true, Bool.or_eq_true, ih, and_true]
    rcases h.1 with hc | hd
    · exact Or.inl (by simp [bne, beq_false_of_upper p0 c hp0 hc])
    · exact Or.inr (by simp [bne, beq_false_of_upper p1 d hp1 hd])

theorem countOccs_skip_run (p0 p1 p2 : Char) :
    ∀ (m y : List Char), deadChunk p0 p1 m = true →
      countOccs [p0, p1, p2] (m ++ y) = countOccs [p0, p1, p2] y
  | [], _, _ => by simp
  | [c], y, h => by
    have hc : (p0 == c) = false := by
      have := h
      simp only [deadChunk, bne] at this
      simpa using this
    simp [countOccs_cons, List.isPrefixOf, hc]
  | c :: d :: rest, y, h => by
    simp only [deadChunk, Bool.and_eq_true] at h
    have ih := countOccs_skip_run p0 p1 p2 (d :: rest) y h.2
    have hor : (p0 != c) = true ∨ (p1 != d) = true := by
      have := h.1
      rcases Bool.eq_false_or_eq_true (p0 != c) with hc | hc
      · exact Or.inl hc
      · refine Or.inr ?_
        rwa [hc, Bool.false_or] at this
    have hpre : (List.isPrefixOf [p0, p1, p2] (c :: d :: (rest ++ y))) = false := by
      rcases hor with hc | hd
      · have : (p0 == c) = false := by simpa [bne] using hc
        simp [List.isPrefixOf, this]
      · have : (p1 == d) = false := by simpa [bne] using hd
        simp [List.isPrefixOf, this]
    rw [List.cons_append, countOccs_cons, List.cons_append, hpre]
    simpa using ih

theorem countOccs_skip_nonupper (p0 : Char) (ps : List Char) (hp0 : p0.isUpper = true) :
    ∀ (m y : List Char), (∀ c ∈ m, c.isUpper = false) →
      countOccs (p0 :: ps) (m ++ y) = countOccs (p0 :: ps) y
  | [], _, _ => by simp
  | c :: t, y, h => by
    have hc : (p0 == c) = false :=
      beq_false_of_upper p0 c hp0 (h c (List.mem_cons_self c t))
    have ih := countOccs_skip_nonupper p0 ps hp0 t y
      (fun x hx => h x (List.mem_cons_of_mem c hx))
    rw [List.cons_append, countOccs_cons]
    simp [List.isPrefixOf, hc, ih]

theorem countOccs_skip_capId (p0 p1 p2 : Char) (hp0 : p0.isUpper = true)
    (hp1 : p1.isUpper = true) (U : Char) (rest z : List Char)
    (hrest : ∀ c ∈ rest, c.isUpper = false) :
    countOccs [p0, p1, p2] ((U :: rest) ++ (" (".data ++ z)) =
      countOccs [p0, p1, p2] (" (".data ++ z) := by
  have hpre : (List.isPrefixOf [p0, p1, p2] (U :: (rest ++ (" (".data ++ z)))) = false := by
    cases rest with
    | nil =>
      have hsp : (p1 == ' ') = false := beq_false_of_upper p1 ' ' hp1 (by decide)
      have : " (".data = ' ' :: ['('] := rfl
      simp [List.isPrefixOf, this, hsp]
    | cons r rs =>
      have hr : (p1 == r) = false :=
        beq_false_of_upper p1 r hp1 (hrest r (List.mem_cons_self r rs))
      simp [List.isPrefixOf, hr]
  rw [List.cons_append, countOccs_cons, hpre]
  simpa using countOccs_skip_nonupper p0 [p1, p2] hp0 rest (" (".data ++ z) hrest

theorem countOccs_occurrence (p0 p1 p2 : Char) (h1 : (p0 == p1) = false)
    (h2 : (p0 == p2) = false) (y : List Char) :
    countOccs [p0, p1, p2] ([p0, p1, p2] ++ y) = 1 + countOccs [p0, p1, p2] y := by
  show countOccs [p0, p1, p2] (p0 :: p1 :: p2 :: y) = 1 + countOccs [p0, p1, p2] y
  rw [countOccs_cons, countOccs_cons, countOccs_cons]
  have e0 : (List.isPrefixOf [p0, p1, p2] (p0 :: p1 :: p2 :: y)) = true := by
    simp [List.isPrefixOf]
  have e1 : (List.isPrefixOf [p0, p1, p2] (p1 :: p2 :: y)) = false := by
    simp [List.isPrefixOf, h1]
  have e2 : (List.isPrefixOf [p0, p1, p2] (p2 :: y)) = false := by
    simp [List.isPrefixOf, h2]
  rw [e0, e1, e2]
  simp

theorem countOccs_self (p0 p1 p2 : Char) (h1 : (p0 == p1) = false)
    (h2 : (p0 == p2) = false) : countOccs [p0, p1, p2] [p0, p1, p2] = 1 := by
  simpa using countOccs_occurrence p0 p1 p2 h1 h2 []

theorem countOccs_detailMsgChars (p0 p1 p2 U : Char) (rest glyph n1 n2 n3 : List Char)
    (hp0 : p0.isUpper = true) (hp1 : p1.isUpper = true)
    (h1 : (p0 == p1) = false) (h2 : (p0 == p2) = false)
    (hrest : ∀ c ∈ rest, c.isUpper = false)
    (hglyph : ∀ c ∈ glyph, c.isUpper = false)
    (hn1 : ∀ c ∈ n1, c.isUpper = false)
    (hn2 : ∀ c ∈ n2, c.isUpper = false)
    (hn3 : ∀ c ∈ n3, c.isUpper = false) :
    countOccs [p0, p1, p2] (detailMsgChars (U :: rest) [p0, p1, p2] glyph n1 n2 n3) = 3 := by
  unfold detailMsgChars
  simp only [List.append_assoc]
  rw [countOccs_skip_run p0 p1 p2 "💰 ".data _
    (deadChunk_of_goodChunk p0 p1 hp0 hp1 _ (by decide))]
  rw [countOccs_skip_capId p0 p1 p2 hp0 hp1 U rest _ hrest]
  rw [countOccs_skip_run p0 p1 p2 " (".data _
    (deadChunk_of_goodChunk p0 p1 hp0 hp1 _ (by decide))]
  rw [countOccs_occurrence p0 p1 p2 h1 h2]
  rw [countOccs_skip_run p0 p1 p2 ")\nPrice: ".data _
    (deadChunk_of_goodChunk p0 p1 hp0 hp1 _ (by decide))]
  rw [countOccs_skip_nonupper p0 [p1, p2] hp0 n1 _ hn1]
  rw [countOccs_skip_run p0 p1 p2 " ".data _
    (deadChunk_of_goodChunk p0 p1 hp0 hp1 _ (by decide))]
  rw [countOccs_occurrence p0 p1 p2 h1 h2]
  rw [countOccs_skip_run p0 p1 p2 "\n24h Change: ".data _
    (deadChunk_of_goodChunk p0 p1 hp0 hp1 _ (by decide))]
  rw [countOccs_skip_nonupper p0 [p1, p2] hp0 glyph _ hglyph]
  rw [countOccs_skip_run p0 p1 p2 " ".data _
    (deadChunk_of_goodChunk p0 p1 hp0 hp1 _ (by decide))]
  rw [countOccs_skip_nonupper p0 [p1, p2] hp0 n2 _ hn2]
  rw [countOccs_skip_run p0 p1 p2 "%\nMarket Cap: ".data _
    (deadChunk_of_goodChunk p0 p1 hp0 hp1 _ (by decide))]
  rw [countOccs_skip_nonupper p0 [p1, p2] hp0 n3 _ hn3]
  rw [countOccs_skip_run p0 p1 p2 " ".data _
    (deadChunk_of_goodChunk p0 p1 hp0 hp1 _ (by decide))]
  rw [countOccs_self p0 p1 p2 h1 h2]

theorem countOccs_detailMsgChars_nilId (p0 p1 p2 : Char) (glyph n1 n2 n3 : List Char)
    (hp0 : p0.isUpper = true) (hp1 : p1.isUpper = true)
    (h1 : (p0 == p1) = false) (h2 : (p0 == p2) = false)
    (hglyph : ∀ c ∈ glyph, c.isUpper = false)
    (hn1 : ∀ c ∈ n1, c.isUpper = false)
    (hn2 : ∀ c ∈ n2, c.isUpper = false)
    (hn3 : ∀ c ∈ n3, c.isUpper = false) :
    countOccs [p0, p1, p2] (detailMsgChars [] [p0, p1, p2] glyph n1 n2 n3) = 3 := by
  unfold detailMsgChars
  simp only [List.append_assoc]
  rw [countOccs_skip_run p0 p1 p2 "💰 ".data _
    (deadChunk_of_goodChunk p0 p1 hp0 hp1 _ (by decide))]
  rw [List.nil_append]
  rw [countOccs_skip_run p0 p1 p2 " (".data _
    (deadChunk_of_goodChunk p0 p1 hp0 hp1 _ (by decide))]
  rw [countOccs_occurrence p0 p1 p2 h1 h2]
  rw [countOccs_skip_run p0 p1 p2 ")\nPrice: ".data _
    (deadChunk_of_goodChunk p0 p1 hp0 hp1 _ (by decide))]
  rw [countOccs_skip_nonupper p0 [p1, p2] hp0 n1 _ hn1]
  rw [countOccs_skip_run p0 p1 p2 " ".data _
    (deadChunk_of_goodChunk p0 p1 hp0 hp1 _ (by decide))]
  rw [countOccs_occurrence p0 p1 p2 h1 h2]
  rw [countOccs_skip_run p0 p1 p2 "\n24h Change: ".data _
    (deadChunk_of_goodChunk p0 p1 hp0 hp1 _ (by decide))]
  rw [countOccs_skip_nonupper p0 [p1, p2] hp0 glyph _ hglyph]
  rw [countOccs_skip_run p0 p1 p2 " ".data _
    (deadChunk_of_goodChunk p0 p1 hp0 hp1 _ (by decide))]
  rw [countOccs_skip_nonupper p0 [p1, p2] hp0 n2 _ hn2]
  rw [countOccs_skip_run p0 p1 p2 "%\nMarket Cap: ".data _
    (deadChunk_of_goodChunk p0 p1 hp0 hp1 _ (by decide))]
  rw [countOccs_skip_nonupper p0 [p1, p2] hp0 n3 _ hn3]
  rw [countOccs_skip_run p0 p1 p2 " ".data _
    (deadChunk_of_goodChunk p0 p1 hp0 hp1 _ (by decide))]
  rw [countOccs_self p0 p1 p2 h1 h2]

/-! ### Character classes of the formatted pieces -/

theorem digits_subset_numberChars : ∀ c ∈ decimalDigits, c ∈ numberChars := by decide

theorem numberChars_not_upper : ∀ c ∈ numberChars, c.isUpper = false := by decide

theorem toUpper_coinIdChar : ∀ c ∈ coinIdChars, Char.toUpper c ∈ capitalizedIdChars := by decide

theorem toLower_coinIdChar : ∀ c ∈ coinIdChars, Char.toLower c ∈ capitalizedIdChars := by decide

theorem toLower_coinIdChar_not_upper : ∀ c ∈ coinIdChars, (Char.toLower c).isUpper = false := by
  decide

theorem capitalizedIdChars_not_glyph :
    ∀ c ∈ capitalizedIdChars, c ≠ '🔺' ∧ c ≠ '🔻' ∧ c ≠ '➖' := by decide

theorem numberChars_not_glyph : ∀ c ∈ numberChars, c ≠ '🔺' ∧ c ≠ '🔻' ∧ c ≠ '➖' := by decide

theorem digitChar_mem (k : Nat) : digitChar k ∈ decimalDigits := by
  unfold digitChar
  rcases Nat.lt_or_ge k 10 with h | h
  · interval_cases k <;> decide
  · have hlen : decimalDigits.length ≤ k := by
      have : decimalDigits.length = 10 := rfl
      omega
    rw [List.getD_eq_default _ _ hlen]
    decide

theorem natDigitsAux_subset : ∀ (fuel n : Nat), ∀ c ∈ natDigitsAux fuel n, c ∈ decimalDigits
  | 0, n => by intro c hc; simp [natDigitsAux] at hc
  | fuel + 1, n => by
    intro c hc
    simp only [natDigitsAux] at hc
    split at hc
    · simp at hc
    · rcases List.mem_append.mp hc with h | h
      · exact natDigitsAux_subset fuel (n / 10) c h
      · simp at h
        rw [h]
        exact digitChar_mem _

theorem natDigits_subset (n : Nat) : ∀ c ∈ natDigits n, c ∈ decimalDigits := by
  intro c hc
  unfold natDigits at hc
  split at hc
  · simp at hc
    rw [hc]
    decide
  · exact natDigitsAux_subset n n c hc

theorem commasRev_subset : ∀ (l : List Char), ∀ c ∈ commasRev l, c ∈ l ∨ c = ','
  | [], c, h => Or.inl h
  | [a], c, h => Or.inl h
  | [a, b], c, h => Or.inl h
  | [a, b, d], c, h => Or.inl h
  | a :: b :: d :: e :: rest, c, h => by
    have h' : c ∈ a :: b :: d :: ',' :: commasRev (e :: rest) := h
    simp only [List.mem_cons] at h'
    rcases h' with h' | h' | h' | h' | h'
    · exact Or.inl (by simp [h'])
    · exact Or.inl (by simp [h'])
    · exact Or.inl (by simp [h'])
    · exact Or.inr h'
    · rcases commasRev_subset (e :: rest) c h' with h'' | h''
      · exact Or.inl (by simp [List.mem_cons] at h'' ⊢; tauto)
      · exact Or.inr h''

theorem mem_groupThousands (ds : List Char) (c : Char) (h : c ∈ groupThousands ds) :
    c ∈ ds ∨ c = ',' := by
  unfold groupThousands at h
  rw [List.mem_reverse] at h
  rcases commasRev_subset ds.reverse c h with h' | h'
  · exact Or.inl (List.mem_reverse.mp h')
  · exact Or.inr h'

theorem pyFormatFixed_subset (d : Nat) (s : Bool) (q : Rat) :
    ∀ c ∈ pyFormatFixed d s q, c ∈ numberChars := by
  intro c hc
  simp only [pyFormatFixed, List.mem_append] at hc
  rcases hc with (hsign | hmid) | hfrac
  · split at hsign
    · simp at hsign
      rw [hsign]
      decide
    · simp at hsign
  · split at hmid
    · rcases mem_groupThousands _ c hmid with h | h
      · exact digits_subset_numberChars c (natDigits_subset _ c h)
      · rw [h]
        decide
    · exact digits_subset_numberChars c (natDigits_subset _ c hmid)
  · split at hfrac
    · simp at hfrac
    · rcases List.mem_cons.mp hfrac with h | h
      · rw [h]
        decide
      · unfold padLeftZeros at h
        rcases List.mem_append.mp h with h | h
        · rw [List.eq_of_mem_replicate h]
          decide
        · exact digits_subset_numberChars c (natDigits_subset _ c h)

theorem pyFormatFixed_not_upper (d : Nat) (s : Bool) (q : Rat) :
    ∀ c ∈ pyFormatFixed d s q, c.isUpper = false :=
  fun c hc => numberChars_not_upper c (pyFormatFixed_subset d s q c hc)

theorem pyCapitalize_subset (s : String) (hs : ∀ c ∈ s.data, c ∈ coinIdChars) :
    ∀ c ∈ (pyCapitalize s).data, c ∈ capitalizedIdChars := by
  intro c hc
  unfold pyCapitalize at hc
  cases h : s.data with
  | nil => rw [h] at hc; simp at hc
  | cons a t =>
    rw [h] at hc
    have hc' : c ∈ Char.toUpper a :: t.map Char.toLower := hc
    rcases List.mem_cons.mp hc' with h' | h'
    · rw [h']
      exact toUpper_coinIdChar a (hs a (h ▸ List.mem_cons_self a t))
    · rcases List.mem_map.mp h' with ⟨x, hx, hxe⟩
      rw [← hxe]
      exact toLower_coinIdChar x (hs x (h ▸ List.mem_cons_of_mem a hx))

/-! ### Membership structure of the detail message -/

theorem mem_detailMsgChars (c : Char) (capId CUR glyph n1 n2 n3 : List Char)
    (h : c ∈ detailMsgChars capId CUR glyph n1 n2 n3) :
    c ∈ fixedDetailChars ∨ c ∈ capId ∨ c ∈ CUR ∨ c ∈ glyph ∨ c ∈ n1 ∨ c ∈ n2 ∨ c ∈ n3 := by
  unfold detailMsgChars at h
  simp only [List.append_assoc, List.mem_append] at h
  rcases h with h | h | h | h | h | h | h | h | h | h | h | h | h | h | h | h
  · exact Or.inl ((by decide : ∀ x ∈ "💰 ".data, x ∈ fixedDetailChars) c h)
  · exact Or.inr (Or.inl h)
  · exact Or.inl ((by decide : ∀ x ∈ " (".data, x ∈ fixedDetailChars) c h)
  · exact Or.inr (Or.inr (Or.inl h))
  · exact Or.inl ((by decide : ∀ x ∈ ")\nPrice: ".data, x ∈ fixedDetailChars) c h)
  · exact Or.inr (Or.inr (Or.inr (Or.inr (Or.inl h))))
  · exact Or.inl ((by decide : ∀ x ∈ " ".data, x ∈ fixedDetailChars) c h)
  · exact Or.inr (Or.inr (Or.inl h))
  · exact Or.inl ((by decide : ∀ x ∈ "\n24h Change: ".data, x ∈ fixedDetailChars) c h)
  · exact Or.inr (Or.inr (Or.inr (Or.inl h)))
  · exact Or.inl ((by decide : ∀ x ∈ " ".data, x ∈ fixedDetailChars) c h)
  · exact Or.inr (Or.inr (Or.inr (Or.inr (Or.inr (Or.inl h)))))
  · exact Or.inl ((by decide : ∀ x ∈ "%\nMarket Cap: ".data, x ∈ fixedDetailChars) c h)
  · exact Or.inr (Or.inr (Or.inr (Or.inr (Or.inr (Or.inr h)))))
  · exact Or.inl ((by decide : ∀ x ∈ " ".data, x ∈ fixedDetailChars) c h)
  · exact Or.inr (Or.inr (Or.inl h))

theorem not_mem_detailMsgChars (g : Char) (capId CUR glyph n1 n2 n3 : List Char)
    (hfix : g ∉ fixedDetailChars) (hcap : g ∉ capId) (hCUR : g ∉ CUR) (hgl : g ∉ glyph)
    (hx1 : g ∉ n1) (hx2 : g ∉ n2) (hx3 : g ∉ n3) :
    g ∉ detailMsgChars capId CUR glyph n1 n2 n3 := by
  intro h
  rcases mem_detailMsgChars g _ _ _ _ _ _ h with h | h | h | h | h | h | h
  exacts [hfix h, hcap h, hCUR h, hgl h, hx1 h, hx2 h, hx3 h]

theorem glyph_mem_detailMsgChars (g : Char) (capId CUR n1 n2 n3 : List Char) :
    g ∈ detailMsgChars capId CUR [g] n1 n2 n3 := by
  unfold detailMsgChars
  simp only [List.append_assoc, List.mem_append]
  tauto

theorem glyph_not_mem_upper3 (g p0 p1 p2 : Char) (hg : g.isUpper = false)
    (hp0 : p0.isUpper = true) (hp1 : p1.isUpper = true) (hp2 : p2.isUpper = true) :
    g ∉ [p0, p1, p2] := by
  intro h
  simp only [List.mem_cons, List.not_mem_nil, or_false] at h
  rcases h with h | h | h <;> rw [h] at hg
  · rw [hp0] at hg; exact Bool.noConfusion hg
  · rw [hp1] at hg; exact Bool.noConfusion hg
  · rw [hp2] at hg; exact Bool.noConfusion hg

theorem change_symbol_not_upper (q : Rat) : ∀ c ∈ change_symbol_of q, c.isUpper = false := by
  unfold change_symbol_of
  split
  · decide
  · split
    · decide
    · decide

theorem detail_msg_glyph_only (cryptoId : String) (p0 p1 p2 g gl : Char)
    (hid : ∀ c ∈ cryptoId.data, c ∈ coinIdChars)
    (hp0 : p0.isUpper = true) (hp1 : p1.isUpper = true) (hp2 : p2.isUpper = true)
    (hgfix : g ∉ fixedDetailChars)
    (hgpool : ∀ c ∈ capitalizedIdChars, c ≠ g)
    (hgnum : ∀ c ∈ numberChars, c ≠ g)
    (hgup : g.isUpper = false)
    (hggl : g ≠ gl)
    (q1 q2 q3 : Rat) :
    g ∉ detailMsgChars (pyCapitalize cryptoId).data [p0, p1, p2] [gl]
      (pyFormatFixed 2 true q1) (pyFormatFixed 2 false q2) (pyFormatFixed 0 true q3) :=
  not_mem_detailMsgChars g _ _ _ _ _ _ hgfix
    (fun h => hgpool g (pyCapitalize_subset cryptoId hid g h) rfl)
    (glyph_not_mem_upper3 g p0 p1 p2 hgup hp0 hp1 hp2)
    (by intro h; simp only [List.mem_cons, List.not_mem_nil, or_false] at h; exact hggl h)
    (fun h => hgnum g (pyFormatFixed_subset _ _ _ g h) rfl)
    (fun h => hgnum g (pyFormatFixed_subset _ _ _ g h) rfl)
    (fun h => hgnum g (pyFormatFixed_subset _ _ _ g h) rfl)

theorem show_crypto_details_message_full
    (cryptoId currency : String) (details : CoinDetail)
    (p0 p1 p2 : Char) (price change mcap : Rat)
    (hcurdata : (pyUpper currency).data = [p0, p1, p2])
    (hp0 : p0.isUpper = true) (hp1 : p1.isUpper = true) (hp2 : p2.isUpper = true)
    (h1 : (p0 == p1) = false) (h2 : (p0 == p2) = false)
    (hid : ∀ c ∈ cryptoId.data, c ∈ coinIdChars)
    (hp : dget details currency = some price)
    (hch : dget details (currency ++ "_24h_change") = some change)
    (hmc : dget details (currency ++ "_market_cap") = some mcap) :
    ∃ msg : String, show_crypto_details_message cryptoId currency details = Except.ok msg ∧
      countOccs (pyUpper currency).data msg.data = 3 ∧
      (0 < change → '🔺' ∈ msg.data ∧ '🔻' ∉ msg.data ∧ '➖' ∉ msg.data) ∧
      (change < 0 → '🔻' ∈ msg.data ∧ '🔺' ∉ msg.data ∧ '➖' ∉ msg.data) ∧
      (change = 0 → '➖' ∈ msg.data ∧ '🔺' ∉ msg.data ∧ '🔻' ∉ msg.data) := by
  have hne : details ≠ [] := by
    intro e
    rw [e] at hp
    simp [dget] at hp
  have hmsg : show_crypto_details_message cryptoId currency details =
      Except.ok (String.mk (detailMsgChars (pyCapitalize cryptoId).data
        (pyUpper currency).data (change_symbol_of change)
        (pyFormatFixed 2 true price) (pyFormatFixed 2 false (pyAbs change))
        (pyFormatFixed 0 true mcap))) := by
    unfold show_crypto_details_message
    rw [if_neg hne, hp, hch, hmc]
  refine ⟨_, hmsg, ?_, ?_, ?_, ?_⟩
  · -- the uppercased currency code occurs exactly three times
    rw [hcurdata]
    cases hsd : cryptoId.data with
    | nil =>
      have hcap : (pyCapitalize cryptoId).data = [] := by
        unfold pyCapitalize
        rw [hsd]
      rw [hcap]
      exact countOccs_detailMsgChars_nilId p0 p1 p2 _ _ _ _ hp0 hp1 h1 h2
        (change_symbol_not_upper change) (pyFormatFixed_not_upper _ _ _)
        (pyFormatFixed_not_upper _ _ _) (pyFormatFixed_not_upper _ _ _)
    | cons a t =>
      have hcap : (pyCapitalize cryptoId).data = Char.toUpper a :: t.map Char.toLower := by
        unfold pyCapitalize
        rw [hsd]
      rw [hcap]
      have hrest : ∀ c ∈ t.map Char.toLower, c.isUpper = false := by
        intro c hc
        rcases List.mem_map.mp hc with ⟨x, hx, hxe⟩
        rw [← hxe]
        exact toLower_coinIdChar_not_upper x (hid x (hsd ▸ List.mem_cons_of_mem a hx))
      exact countOccs_detailMsgChars p0 p1 p2 _ _ _ _ _ _ hp0 hp1 h1 h2 hrest
        (change_symbol_not_upper change) (pyFormatFixed_not_upper _ _ _)
        (pyFormatFixed_not_upper _ _ _) (pyFormatFixed_not_upper _ _ _)
  · -- positive change: the up glyph and no other
    intro hgt
    have hglyph : change_symbol_of change = ['🔺'] := by
      unfold change_symbol_of
      rw [if_pos hgt]
    rw [hcurdata, hglyph]
    exact ⟨glyph_mem_detailMsgChars '🔺' _ _ _ _ _,
      detail_msg_glyph_only cryptoId p0 p1 p2 '🔻' '🔺' hid hp0 hp1 hp2 (by decide)
        (by decide) (by decide) (by decide) (by decide) _ _ _,
      detail_msg_glyph_only cryptoId p0 p1 p2 '➖' '🔺' hid hp0 hp1 hp2 (by decide)
        (by decide) (by decide) (by decide) (by decide) _ _ _⟩
  · -- negative change: the down glyph and no other
    intro hlt
    have hglyph : change_symbol_of change = ['🔻'] := by
      unfold change_symbol_of
      rw [if_neg (lt_asymm hlt), if_pos hlt]
    rw [hcurdata, hglyph]
    exact ⟨glyph_mem_detailMsgChars '🔻' _ _ _ _ _,
      detail_msg_glyph_only cryptoId p0 p1 p2 '🔺' '🔻' hid hp0 hp1 hp2 (by decide)
        (by decide) (by decide) (by decide) (by decide) _ _ _,
      detail_msg_glyph_only cryptoId p0 p1 p2 '➖' '🔻' hid hp0 hp1 hp2 (by decide)
        (by decide) (by decide) (by decide) (by decide) _ _ _⟩
  · -- zero change: the flat glyph and no other
    intro heq
    have hglyph : change_symbol_of change = ['➖'] := by
      unfold change_symbol_of
      rw [heq]
      rw [if_neg (lt_irrefl (0 : Rat))]
      rw [if_neg (lt_irrefl (0 : Rat))]
    rw [hcurdata, hglyph]
    exact ⟨glyph_mem_detailMsgChars '➖' _ _ _ _ _,
      detail_msg_glyph_only cryptoId p0 p1 p2 '🔺' '➖' hid hp0 hp1 hp2 (by decide)
        (by decide) (by decide) (by decide) (by decide) _ _ _,
      detail_msg_glyph_only cryptoId p0 p1 p2 '🔻' '➖' hid hp0 hp1 hp2 (by decide)
        (by decide) (by decide) (by decide) (by decide) _ _ _⟩

/-- C1 (amended): for every supported currency, every coin id over the coin-id
alphabet, and every fully-populated detail, the message rendered by
`show_crypto_details` contains the uppercased currency code exactly three
times (header, price and market-cap lines) and contains exactly the
directional glyph matching the sign of `change24h`: the up glyph when
positive, the down glyph when negative, the flat glyph when zero. -/
theorem renderCoinDetail_currency_count_and_glyph
    (currency cryptoId : String) (details : CoinDetail) (price change mcap : Rat)
    (hcur : currency ∈ SUPPORTED_CURRENCIES)
    (hid : ∀ c ∈ cryptoId.data, c ∈ coinIdChars)
    (hp : dget details currency = some price)
    (hch : dget details (currency ++ "_24h_change") = some change)
    (hmc : dget details (currency ++ "_market_cap") = some mcap) :
    ∃ msg : String, show_crypto_details_message cryptoId currency details = Except.ok msg ∧
      countOccs (pyUpper currency).data msg.data = 3 ∧
      (0 < change → '🔺' ∈ msg.data ∧ '🔻' ∉ msg.data ∧ '➖' ∉ msg.data) ∧
      (change < 0 → '🔻' ∈ msg.data ∧ '🔺' ∉ msg.data ∧ '➖' ∉ msg.data) ∧
      (change = 0 → '➖' ∈ msg.data ∧ '🔺' ∉ msg.data ∧ '🔻' ∉ msg.data) := by
  fin_cases hcur <;>
    exact show_crypto_details_message_full _ _ _ _ _ _ _ _ _ rfl (by decide) (by decide)
      (by decide) (by decide) (by decide) hid hp hch hmc

/-- C1 counterexample: on a concrete fully-populated detail the rendered
message contains the uppercased currency code three times — the claim's
"exactly twice" is false, because the header line `💰 Bitcoin (USD)` also
carries it. -/
theorem renderCoinDetail_currency_count_not_two :
    (show_crypto_details_message "bitcoin" "usd" dtlFull).map
      (fun m => countOccs (pyUpper "usd").data m.data) = Except.ok 3 ∧
    (show_crypto_details_message "bitcoin" "usd" dtlFull).map
      (fun m => countOccs (pyUpper "usd").data m.data) ≠ Except.ok 2 := by
  constructor
  · decide
  · decide

/-- C1 witness: the amended theorem applied at the concrete input
`bitcoin`/`usd` with price 65000, change -2, market cap 1280000000000. -/
theorem renderCoinDetail_currency_count_and_glyph_witness :
    ∃ msg : String, show_crypto_details_message "bitcoin" "usd" dtlFull = Except.ok msg ∧
      countOccs (pyUpper "usd").data msg.data = 3 ∧
      (0 < (-2 : Rat) → '🔺' ∈ msg.data ∧ '🔻' ∉ msg.data ∧ '➖' ∉ msg.data) ∧
      ((-2 : Rat) < 0 → '🔻' ∈ msg.data ∧ '🔺' ∉ msg.data ∧ '➖' ∉ msg.data) ∧
      ((-2 : Rat) = 0 → '➖' ∈ msg.data ∧ '🔺' ∉ msg.data ∧ '🔻' ∉ msg.data) :=
  renderCoinDetail_currency_count_and_glyph "usd" "bitcoin" dtlFull 65000 (-2) 1280000000000
    (by decide) (by decide) (by decide) (by decide) (by decide)

/-! ### Token parsing and branch navigation -/

theorem stringMk_data (s : String) : String.mk s.data = s := by
  cases s
  rfl

theorem splitColon_no_colon : ∀ l : List Char, (∀ c ∈ l, c ≠ ':') → splitColon l = [l]
  | [], _ => rfl
  | c :: rest, h => by
    have ih := splitColon_no_colon rest (fun x hx => h x (List.mem_cons_of_mem c hx))
    have hc : c ≠ ':' := h c (List.mem_cons_self c rest)
    simp only [splitColon, ih]
    rw [if_neg hc]

theorem splitColon_ne_nil (l : List Char) : splitColon l ≠ [] := by
  induction l with
  | nil => simp [splitColon]
  | cons c rest ih =>
    simp only [splitColon]
    rcases hsp : splitColon rest with _ | ⟨h, t⟩
    · exact absurd hsp ih
    · dsimp only
      split <;> simp

theorem splitColon_append : ∀ (l t : List Char), (∀ c ∈ l, c ≠ ':') →
    splitColon (l ++ ':' :: t) = l :: splitColon t
  | [], t, _ => by
    show splitColon (':' :: t) = [] :: splitColon t
    simp only [splitColon]
    cases hsp : splitColon t with
    | nil => exact absurd hsp (splitColon_ne_nil t)
    | cons h2 t2 => simp
  | c :: rest, t, h => by
    have ih := splitColon_append rest t (fun x hx => h x (List.mem_cons_of_mem c hx))
    have hc : c ≠ ':' := h c (List.mem_cons_self c rest)
    show splitColon (c :: (rest ++ ':' :: t)) = (c :: rest) :: splitColon t
    simp only [splitColon, ih]
    rw [if_neg hc]

theorem pySplitSecond_crypto_colon (a b : String) (ha : ∀ c ∈ a.data, c ≠ ':') :
    pySplitSecond ("crypto:" ++ (a ++ ":" ++ b)) = a := by
  unfold pySplitSecond
  have e : ("crypto:" ++ (a ++ ":" ++ b)).data =
      "crypto".data ++ ':' :: (a.data ++ ':' :: b.data) := by
    rw [String.data_append, String.data_append, String.data_append, List.append_assoc]
    exact rfl
  rw [e, splitColon_append _ _ (by decide), splitColon_append _ _ ha]
  simp only [List.getD_cons_succ, List.getD_cons_zero]

theorem pySplitSecond_currency_colon (a b : String) (ha : ∀ c ∈ a.data, c ≠ ':') :
    pySplitSecond ("currency:" ++ (a ++ ":" ++ b)) = a := by
  unfold pySplitSecond
  have e : ("currency:" ++ (a ++ ":" ++ b)).data =
      "currency".data ++ ':' :: (a.data ++ ':' :: b.data) := by
    rw [String.data_append, String.data_append, String.data_append, List.append_assoc]
    exact rfl
  rw [e, splitColon_append _ _ (by decide), splitColon_append _ _ ha]
  simp only [List.getD_cons_succ, List.getD_cons_zero]

theorem pySplitSecond_crypto_plain (a : String) (ha : ∀ c ∈ a.data, c ≠ ':') :
    pySplitSecond ("crypto:" ++ a) = a := by
  unfold pySplitSecond
  have e : ("crypto:" ++ a).data = "crypto".data ++ ':' :: a.data := by
    rw [String.data_append]
    rfl
  rw [e, splitColon_append _ _ (by decide), splitColon_no_colon a.data ha]
  simp only [List.getD_cons_succ, List.getD_cons_zero]

theorem pySplitSecond_currency_plain (a : String) (ha : ∀ c ∈ a.data, c ≠ ':') :
    pySplitSecond ("currency:" ++ a) = a := by
  unfold pySplitSecond
  have e : ("currency:" ++ a).data = "currency".data ++ ':' :: a.data := by
    rw [String.data_append]
    rfl
  rw [e, splitColon_append _ _ (by decide), splitColon_no_colon a.data ha]
  simp only [List.getD_cons_succ, List.getD_cons_zero]

theorem ne_of_head_string (a b : String) (ca cb : Char) (ta tb : List Char)
    (hae : a.data = ca :: ta) (hbe : b.data = cb :: tb) (hc : ca ≠ cb) : a ≠ b := by
  intro h
  rw [h] at hae
  rw [hbe] at hae
  injection hae with h1 _
  exact hc h1.symm

theorem cryptoTok_ne_main_menu (s : String) : "crypto:" ++ s ≠ "main_menu" :=
  ne_of_head_string _ _ 'c' 'm' ("rypto:".data ++ s.data) "ain_menu".data
    (by rw [String.data_append]; rfl) rfl (by decide)

theorem cryptoTok_ne_top100 (s : String) : "crypto:" ++ s ≠ "top100" :=
  ne_of_head_string _ _ 'c' 't' ("rypto:".data ++ s.data) "op100".data
    (by rw [String.data_append]; rfl) rfl (by decide)

theorem cryptoTok_ne_trending (s : String) : "crypto:" ++ s ≠ "trending" :=
  ne_of_head_string _ _ 'c' 't' ("rypto:".data ++ s.data) "rending".data
    (by rw [String.data_append]; rfl) rfl (by decide)

theorem cryptoTok_ne_search (s : String) : "crypto:" ++ s ≠ "search" :=
  ne_of_head_string _ _ 'c' 's' ("rypto:".data ++ s.data) "earch".data
    (by rw [String.data_append]; rfl) rfl (by decide)

theorem currencyTok_ne_main_menu (s : String) : "currency:" ++ s ≠ "main_menu" :=
  ne_of_head_string _ _ 'c' 'm' ("urrency:".data ++ s.data) "ain_menu".data
    (by rw [String.data_append]; rfl) rfl (by decide)

theorem currencyTok_ne_top100 (s : String) : "currency:" ++ s ≠ "top100" :=
  ne_of_head_string _ _ 'c' 't' ("urrency:".data ++ s.data) "op100".data
    (by rw [String.data_append]; rfl) rfl (by decide)

theorem currencyTok_ne_trending (s : String) : "currency:" ++ s ≠ "trending" :=
  ne_of_head_string _ _ 'c' 't' ("urrency:".data ++ s.data) "rending".data
    (by rw [String.data_append]; rfl) rfl (by decide)

theorem currencyTok_ne_search (s : String) : "currency:" ++ s ≠ "search" :=
  ne_of_head_string _ _ 'c' 's' ("urrency:".data ++ s.data) "earch".data
    (by rw [String.data_append]; rfl) rfl (by decide)

theorem cryptoTok_startsWith (s : String) : pyStartsWith "crypto:" ("crypto:" ++ s) = true := by
  unfold pyStartsWith
  rw [String.data_append, List.isPrefixOf_iff_prefix]
  exact List.prefix_append _ _

theorem currencyTok_not_startsWith_crypto (s : String) :
    pyStartsWith "crypto:" ("currency:" ++ s) = false := by
  unfold pyStartsWith
  rw [String.data_append]
  rfl

theorem currencyTok_startsWith (s : String) :
    pyStartsWith "currency:" ("currency:" ++ s) = true := by
  unfold pyStartsWith
  rw [String.data_append, List.isPrefixOf_iff_prefix]
  exact List.prefix_append _ _

theorem button_click_cryptoTok (env : Env) (ud : Option String) (s : String) :
    button_click env ud ("crypto:" ++ s) =
      Except.ok ⟨some (pySplitSecond ("crypto:" ++ s)), [show_currency_options],
        some CHOOSING_CURRENCY⟩ := by
  unfold button_click
  rw [if_neg (cryptoTok_ne_main_menu s), if_neg (cryptoTok_ne_top100 s),
    if_neg (cryptoTok_ne_trending s), if_neg (cryptoTok_ne_search s),
    if_pos (cryptoTok_startsWith s)]

theorem button_click_currencyTok (env : Env) (ud : Option String) (s : String) :
    button_click env ud ("currency:" ++ s) =
      (show_crypto_details (ud.getD "bitcoin") (pySplitSecond ("currency:" ++ s))
        (env.priceResponse (ud.getD "bitcoin") (pySplitSecond ("currency:" ++ s)))).map
        (fun r => ⟨ud, [r], some MAIN_MENU⟩) := by
  unfold button_click
  rw [if_neg (currencyTok_ne_main_menu s), if_neg (currencyTok_ne_top100 s),
    if_neg (currencyTok_ne_trending s), if_neg (currencyTok_ne_search s),
    if_neg (by rw [currencyTok_not_startsWith_crypto s]; exact Bool.false_ne_true),
    if_pos (by rw [currencyTok_startsWith s])]

/-- C9: a selection token matching no branch of `button_click` is silently
ignored: nothing is rendered, no state is returned, and the conversation
keeps both its state and its stored coin id. -/
theorem button_click_unknown_token (env : Env) (ud : Option String) (st : Nat) (data : String)
    (h1 : data ≠ "main_menu") (h2 : data ≠ "top100") (h3 : data ≠ "trending")
    (h4 : data ≠ "search") (h5 : pyStartsWith "crypto:" data = false)
    (h6 : pyStartsWith "currency:" data = false) :
    button_click env ud data = Except.ok ⟨ud, [], none⟩ ∧
    convStep env ⟨ud, st⟩ data = ⟨ud, st⟩ := by
  have hb : button_click env ud data = Except.ok ⟨ud, [], none⟩ := by
    unfold button_click
    rw [if_neg h1, if_neg h2, if_neg h3, if_neg h4,
      if_neg (by rw [h5]; exact Bool.false_ne_true),
      if_neg (by rw [h6]; exact Bool.false_ne_true)]
  refine ⟨hb, ?_⟩
  unfold convStep
  rw [hb]
  rfl

/-- C9 witness: the concrete unknown token `bogus` at a concrete session. -/
theorem button_click_unknown_token_witness :
    button_click envAllErr (some "bitcoin") "bogus" = Except.ok ⟨some "bitcoin", [], none⟩ ∧
    convStep envAllErr ⟨some "bitcoin", CHOOSING_CRYPTO⟩ "bogus" =
      ⟨some "bitcoin", CHOOSING_CRYPTO⟩ :=
  button_click_unknown_token envAllErr (some "bitcoin") CHOOSING_CRYPTO "bogus"
    (by decide) (by decide) (by decide) (by decide) (by decide) (by decide)

/-- C10: token parsing splits on every colon and keeps only the second field:
a `crypto:`/`currency:` token whose payload itself contains a colon stores
(resp. uses as currency) only the segment between the first and second
colon, silently truncating the rest of the payload. -/
theorem token_payload_truncated_at_colon (env : Env) (ud : Option String) (a b : String)
    (ha : ∀ c ∈ a.data, c ≠ ':') :
    button_click env ud ("crypto:" ++ (a ++ ":" ++ b)) =
      Except.ok ⟨some a, [show_currency_options], some CHOOSING_CURRENCY⟩ ∧
    button_click env ud ("currency:" ++ (a ++ ":" ++ b)) =
      (show_crypto_details (ud.getD "bitcoin") a
        (env.priceResponse (ud.getD "bitcoin") a)).map
        (fun r => ⟨ud, [r], some MAIN_MENU⟩) := by
  constructor
  · rw [button_click_cryptoTok, pySplitSecond_crypto_colon a b ha]
  · rw [button_click_currencyTok, pySplitSecond_currency_colon a b ha]

/-- C10 witness: the token `crypto:a:b` stores the coin id `a`; the token
`currency:a:b` uses the currency `a`. -/
theorem token_payload_truncated_at_colon_witness :
    button_click envAllErr none ("crypto:" ++ ("a" ++ ":" ++ "b")) =
      Except.ok ⟨some "a", [show_currency_options], some CHOOSING_CURRENCY⟩ ∧
    button_click envAllErr none ("currency:" ++ ("a" ++ ":" ++ "b")) =
      (show_crypto_details ((none : Option String).getD "bitcoin") "a"
        (envAllErr.priceResponse ((none : Option String).getD "bitcoin") "a")).map
        (fun r => ⟨none, [r], some MAIN_MENU⟩) :=
  token_payload_truncated_at_colon envAllErr none "a" "b" (by decide)

/-- C7: a currency selection with no stored coin id does not fail: the default
id `bitcoin` is substituted, the transition renders and returns exactly what
the same selection with stored id `bitcoin` would, and whenever the detail
message renders (empty or fully-populated detail) the machine proceeds to
MainMenu. -/
theorem currency_without_coin_defaults_to_bitcoin
    (env : Env) (code : String) (st : Nat)
    (hrender : ∃ m, show_crypto_details_message "bitcoin" (pySplitSecond ("currency:" ++ code))
      (get_crypto_details "bitcoin" (pySplitSecond ("currency:" ++ code))
        (env.priceResponse "bitcoin" (pySplitSecond ("currency:" ++ code)))) = Except.ok m) :
    (button_click env none ("currency:" ++ code)).map (fun r => (r.renders, r.next_state)) =
      (button_click env (some "bitcoin") ("currency:" ++ code)).map
        (fun r => (r.renders, r.next_state)) ∧
    convStep env ⟨none, st⟩ ("currency:" ++ code) = ⟨none, MAIN_MENU⟩ := by
  obtain ⟨m, hm⟩ := hrender
  have hsd : show_crypto_details "bitcoin" (pySplitSecond ("currency:" ++ code))
      (env.priceResponse "bitcoin" (pySplitSecond ("currency:" ++ code))) =
      Except.ok ⟨m, [[backToMainMenuButton]]⟩ := by
    unfold show_crypto_details
    rw [hm]
    rfl
  constructor
  · rw [button_click_currencyTok env none code, button_click_currencyTok env (some "bitcoin") code]
    simp only [Option.getD_none, Option.getD_some]
    cases show_crypto_details "bitcoin" (pySplitSecond ("currency:" ++ code))
        (env.priceResponse "bitcoin" (pySplitSecond ("currency:" ++ code))) <;> rfl
  · unfold convStep
    rw [button_click_currencyTok env none code]
    simp only [Option.getD_none]
    rw [hsd]
    rfl

/-- C7 witness: the concrete selection `currency:usd` with an empty session
and a failing detail fetch. -/
theorem currency_without_coin_defaults_to_bitcoin_witness :
    ((button_click envAllErr none ("currency:" ++ "usd")).map
        (fun r => (r.renders, r.next_state)) =
      (button_click envAllErr (some "bitcoin") ("currency:" ++ "usd")).map
        (fun r => (r.renders, r.next_state))) ∧
    convStep envAllErr ⟨none, CHOOSING_CURRENCY⟩ ("currency:" ++ "usd") = ⟨none, MAIN_MENU⟩ :=
  currency_without_coin_defaults_to_bitcoin envAllErr "usd" CHOOSING_CURRENCY
    ⟨detailNotFound "bitcoin", by decide⟩

/-- C2 counterexample: `/start` from ChoosingCurrency with stored coin id
`ethereum` resets the state to MainMenu but does not clear the stored id —
it stays `some "ethereum"`, and a following `currency:usd` selection still
looks up `ethereum`. -/
theorem start_does_not_clear_selected_coin :
    (start ⟨some "ethereum", CHOOSING_CURRENCY⟩).state = MAIN_MENU ∧
    (start ⟨some "ethereum", CHOOSING_CURRENCY⟩).user_data_crypto ≠ none ∧
    button_click envAllErr (start ⟨some "ethereum", CHOOSING_CURRENCY⟩).user_data_crypto
        "currency:usd" =
      Except.ok ⟨some "ethereum",
        [⟨detailNotFound "ethereum", [[backToMainMenuButton]]⟩], some MAIN_MENU⟩ :=
  ⟨rfl, by decide, by decide⟩

/-- C2 (amended): the start command from any state transitions the session to
MainMenu but leaves the stored coin id exactly as it was, so every later
selection token behaves as it would have before the start command. -/
theorem start_resets_state_but_keeps_coin (s : Session) (env : Env) (tok : String) :
    (start s).state = MAIN_MENU ∧
    (start s).user_data_crypto = s.user_data_crypto ∧
    button_click env (start s).user_data_crypto tok = button_click env s.user_data_crypto tok :=
  ⟨rfl, rfl, rfl⟩

/-- C5: the run top100 → crypto:bitcoin → currency:usd against a
partially-populated detail response (`{"bitcoin": {"usd": 65000}}`, no 24h
change): the first two transitions reach ChoosingCrypto and ChoosingCurrency
as claimed, but the third raises TypeError inside `show_crypto_details`, the
handler returns no state, and the machine stays in ChoosingCurrency instead
of reaching MainMenu. -/
theorem top100_crypto_currency_run_stuck :
    convStep envPartialDetail ⟨none, MAIN_MENU⟩ "top100" = ⟨none, CHOOSING_CRYPTO⟩ ∧
    convStep envPartialDetail ⟨none, CHOOSING_CRYPTO⟩ "crypto:bitcoin" =
      ⟨some "bitcoin", CHOOSING_CURRENCY⟩ ∧
    button_click envPartialDetail (some "bitcoin") "currency:usd" =
      Except.error PyError.typeError ∧
    convStep envPartialDetail ⟨some "bitcoin", CHOOSING_CURRENCY⟩ "currency:usd" =
      ⟨some "bitcoin", CHOOSING_CURRENCY⟩ ∧
    ⟨some "bitcoin", CHOOSING_CURRENCY⟩ ≠ (⟨some "bitcoin", MAIN_MENU⟩ : Session) :=
  ⟨by decide, by decide, by decide, by decide, by decide⟩

/-- C4 counterexample: a transport failure of the search request is not
degraded to an empty result: the message handler renders the error notice,
which differs from what the empty-result path renders. -/
theorem search_error_not_empty_result :
    handle_message envAllErr "dogecoin" =
      ⟨[⟨"An error occurred while searching for the cryptocurrency.", []⟩,
        show_main_menu], MAIN_MENU⟩ ∧
    handle_message envSearchEmpty "dogecoin" =
      ⟨[⟨"Sorry, I couldn't find any cryptocurrency matching your search.", []⟩,
        show_main_menu], MAIN_MENU⟩ ∧
    handle_message envAllErr "dogecoin" ≠ handle_message envSearchEmpty "dogecoin" :=
  ⟨by decide, by decide, by decide⟩

/-- C4 (amended): the three fetch helpers degrade any transport failure to an
empty result and never raise; the free-text search has no such helper — its
failure is caught inside the message handler, which renders an error notice
(distinct from the empty-result notice) and returns to the main menu, so no
exception reaches the state machine either way. -/
theorem api_errors_degrade_to_empty (limit : Nat) (id cur : String) (env : Env) (text : String)
    (hs : env.searchResponse (pyLower text) = Fetch.err) :
    get_top_cryptos limit Fetch.err = [] ∧
    get_trending_cryptos Fetch.err = [] ∧
    get_crypto_details id cur Fetch.err = [] ∧
    handle_message env text =
      ⟨[⟨"An error occurred while searching for the cryptocurrency.", []⟩,
        show_main_menu], MAIN_MENU⟩ := by
  refine ⟨rfl, rfl, rfl, ?_⟩
  simp only [handle_message, hs]

/-- C4 witness: the amended theorem at concrete inputs. -/
theorem api_errors_degrade_to_empty_witness :
    get_top_cryptos 100 Fetch.err = ([] : List Coin) ∧
    get_trending_cryptos Fetch.err = ([] : List Coin) ∧
    get_crypto_details "bitcoin" "usd" Fetch.err = ([] : CoinDetail) ∧
    handle_message envAllErr "dogecoin" =
      ⟨[⟨"An error occurred while searching for the cryptocurrency.", []⟩,
        show_main_menu], MAIN_MENU⟩ :=
  api_errors_degrade_to_empty 100 "bitcoin" "usd" envAllErr "dogecoin" rfl

/-- C6: an empty detail — from a transport error or from a coin id absent
from the response body — always renders the fixed not-found message with the
back-to-main-menu keyboard, independent of the currency: the two causes are
indistinguishable in the rendered output. -/
theorem renderCoinDetail_empty_not_found
    (cryptoId currency currency2 : String) (data : List (String × CoinDetail))
    (habsent : data.find? (fun kv => kv.1 == cryptoId) = none) :
    get_crypto_details cryptoId currency Fetch.err = [] ∧
    get_crypto_details cryptoId currency2 (Fetch.ok data) = [] ∧
    show_crypto_details cryptoId currency Fetch.err =
      Except.ok ⟨detailNotFound cryptoId, [[backToMainMenuButton]]⟩ ∧
    show_crypto_details cryptoId currency2 (Fetch.ok data) =
      Except.ok ⟨detailNotFound cryptoId, [[backToMainMenuButton]]⟩ := by
  have h2 : get_crypto_details cryptoId currency2 (Fetch.ok data) = [] := by
    show ((data.find? (fun kv => kv.1 == cryptoId)).map Prod.snd).getD [] = []
    rw [habsent]
    rfl
  refine ⟨rfl, h2, rfl, ?_⟩
  unfold show_crypto_details
  rw [h2]
  rfl

/-- C6 witness: coin `bitcoin` with an empty response body, in two different
currencies. -/
theorem renderCoinDetail_empty_not_found_witness :
    get_crypto_details "bitcoin" "usd" Fetch.err = ([] : CoinDetail) ∧
    get_crypto_details "bitcoin" "eur" (Fetch.ok []) = ([] : CoinDetail) ∧
    show_crypto_details "bitcoin" "usd" Fetch.err =
      Except.ok ⟨detailNotFound "bitcoin", [[backToMainMenuButton]]⟩ ∧
    show_crypto_details "bitcoin" "eur" (Fetch.ok []) =
      Except.ok ⟨detailNotFound "bitcoin", [[backToMainMenuButton]]⟩ :=
  renderCoinDetail_empty_not_found "bitcoin" "usd" "eur" [] (by decide)

/-- C3: a non-empty detail in which any of the three fields is absent makes
`show_crypto_details` raise — a TypeError comparing the defaulted string
`'N/A'` with 0, or a ValueError formatting it with a float format spec —
instead of rendering an `N/A` placeholder. -/
theorem renderCoinDetail_missing_field_raises
    (cryptoId currency : String) (details : CoinDetail)
    (hne : details ≠ [])
    (hmiss : dget details currency = none ∨
      dget details (currency ++ "_24h_change") = none ∨
      dget details (currency ++ "_market_cap") = none) :
    ∃ e, show_crypto_details_message cryptoId currency details = Except.error e := by
  unfold show_crypto_details_message
  rw [if_neg hne]
  rcases h1 : dget details currency with _ | p <;>
    rcases h2 : dget details (currency ++ "_24h_change") with _ | ch <;>
      rcases h3 : dget details (currency ++ "_market_cap") with _ | mc
  · exact ⟨PyError.typeError, rfl⟩
  · exact ⟨PyError.typeError, rfl⟩
  · exact ⟨PyError.valueError, rfl⟩
  · exact ⟨PyError.valueError, rfl⟩
  · exact ⟨PyError.typeError, rfl⟩
  · exact ⟨PyError.typeError, rfl⟩
  · exact ⟨PyError.valueError, rfl⟩
  · rcases hmiss with h | h | h
    · rw [h1] at h
      exact absurd h (by simp)
    · rw [h2] at h
      exact absurd h (by simp)
    · rw [h3] at h
      exact absurd h (by simp)

/-- C3 witness: the concrete detail `{"usd": 65000}` (24h change and market
cap absent) is non-empty, misses a field, and makes the renderer raise; the
specific exception at this input is the TypeError from `'N/A' > 0`. -/
theorem renderCoinDetail_missing_field_raises_witness :
    dtlPartial ≠ [] ∧
    (dget dtlPartial "usd" = none ∨ dget dtlPartial ("usd" ++ "_24h_change") = none ∨
      dget dtlPartial ("usd" ++ "_market_cap") = none) ∧
    (∃ e, show_crypto_details_message "bitcoin" "usd" dtlPartial = Except.error e) ∧
    show_crypto_details_message "bitcoin" "usd" dtlPartial = Except.error PyError.typeError :=
  ⟨by decide, Or.inr (Or.inl (by decide)),
    renderCoinDetail_missing_field_raises "bitcoin" "usd" dtlPartial (by decide)
      (Or.inr (Or.inl (by decide))),
    by decide⟩

/-! ### Coin-list layout -/

theorem pairRows_length : ∀ cs : List Coin, (pairRows cs).length = (cs.length + 1) / 2
  | [] => rfl
  | [_] => by simp [pairRows]
  | a :: b :: rest => by
    have ih := pairRows_length rest
    show ([a, b] :: pairRows rest).length = _
    simp only [List.length_cons, ih]
    omega

theorem pairRows_flatten : ∀ cs : List Coin, (pairRows cs).flatten = cs
  | [] => rfl
  | [_] => by simp [pairRows]
  | a :: b :: rest => by
    have ih := pairRows_flatten rest
    show ([a, b] :: pairRows rest).flatten = a :: b :: rest
    rw [List.flatten_cons, ih]
    rfl

theorem pairRows_rows : ∀ cs : List Coin, ∀ row ∈ pairRows cs, row.length = 2 ∨ row.length = 1
  | [], row, h => absurd h (by simp [pairRows])
  | [a], row, h => by
    have h' : row ∈ [[a]] := h
    simp only [List.mem_singleton] at h'
    rw [h']
    exact Or.inr rfl
  | a :: b :: rest, row, h => by
    have h' : row ∈ [a, b] :: pairRows rest := h
    rcases List.mem_cons.mp h' with h'' | h''
    · rw [h'']
      exact Or.inl rfl
    · exact pairRows_rows rest row h''

theorem pairRows_dropLast : ∀ cs : List Coin, ∀ row ∈ (pairRows cs).dropLast, row.length = 2
  | [], row, h => absurd h (by simp [pairRows])
  | [a], row, h => absurd h (by simp [pairRows])
  | a :: b :: rest, row, h => by
    have h' : row ∈ ([a, b] :: pairRows rest).dropLast := h
    rcases hpr : pairRows rest with _ | ⟨p, ps⟩
    · rw [hpr] at h'
      simp at h'
    · rw [hpr] at h'
      have h'' : row ∈ [a, b] :: (p :: ps).dropLast := h'
      rcases List.mem_cons.mp h'' with h3 | h3
      · rw [h3]
        rfl
      · refine pairRows_dropLast rest row ?_
        rw [hpr]
        exact h3

theorem pairRows_last_odd : ∀ cs : List Coin, cs.length % 2 = 1 →
    ∃ a, (pairRows cs).getLast? = some [a]
  | [], h => by simp at h
  | [a], _ => ⟨a, rfl⟩
  | a :: b :: rest, h => by
    have hr : rest.length % 2 = 1 := by
      simp only [List.length_cons] at h
      omega
    obtain ⟨x, hx⟩ := pairRows_last_odd rest hr
    refine ⟨x, ?_⟩
    rcases hpr : pairRows rest with _ | ⟨p, ps⟩
    · rw [hpr] at hx
      simp at hx
    · show (([a, b] :: pairRows rest).getLast?) = some [x]
      rw [hpr, List.getLast?_cons_cons, ← hpr, hx]

theorem getLast?_map_list {α β : Type} (f : α → β) :
    ∀ l : List α, (l.map f).getLast? = l.getLast?.map f
  | [] => rfl
  | [_] => rfl
  | a :: b :: l => by
    show ((f a) :: (f b) :: (l.map f)).getLast? = _
    rw [List.getLast?_cons_cons, List.getLast?_cons_cons]
    exact getLast?_map_list f (b :: l)

/-- C8: the coin-list keyboard holds ⌈n/2⌉ coin rows grouped two per row (the
last coin row a single button when n is odd), every coin button carrying the
token `crypto:<id>`, followed by exactly one trailing back-to-main-menu row;
the empty list yields exactly the back row. -/
theorem show_crypto_list_layout (cryptos : List Coin) (title : String) :
    ((show_crypto_list cryptos title).keyboard).length = (cryptos.length + 1) / 2 + 1 ∧
    ((show_crypto_list cryptos title).keyboard).getLast? = some [backToMainMenuButton] ∧
    (((show_crypto_list cryptos title).keyboard).dropLast.flatten.map
        (fun btn => btn.callback_data)) =
      cryptos.map (fun crypto => "crypto:" ++ crypto.id.getD "unknown") ∧
    (∀ row ∈ ((show_crypto_list cryptos title).keyboard).dropLast,
      row.length = 2 ∨ row.length = 1) ∧
    (∀ row ∈ (((show_crypto_list cryptos title).keyboard).dropLast).dropLast,
      row.length = 2) ∧
    (cryptos.length % 2 = 1 →
      ∃ btn, (((show_crypto_list cryptos title).keyboard).dropLast).getLast? = some [btn]) ∧
    (cryptos = [] → (show_crypto_list cryptos title).keyboard = [[backToMainMenuButton]]) := by
  have hkb : (show_crypto_list cryptos title).keyboard =
      (pairRows cryptos).map (List.map cryptoButton) ++ [[backToMainMenuButton]] := rfl
  have hdrop : ((show_crypto_list cryptos title).keyboard).dropLast =
      (pairRows cryptos).map (List.map cryptoButton) := by
    rw [hkb, List.dropLast_concat]
  refine ⟨?_, ?_, ?_, ?_, ?_, ?_, ?_⟩
  · rw [hkb]
    simp only [List.length_append, List.length_map, List.length_cons, List.length_nil]
    rw [pairRows_length]
  · rw [hkb, List.getLast?_concat]
  · rw [hdrop]
    rw [← List.map_flatten, pairRows_flatten]
    rw [List.map_map]
    rfl
  · intro row hrow
    rw [hdrop] at hrow
    rcases List.mem_map.mp hrow with ⟨r, hr, hre⟩
    rcases pairRows_rows cryptos r hr with h | h
    · exact Or.inl (by rw [← hre, List.length_map, h])
    · exact Or.inr (by rw [← hre, List.length_map, h])
  · intro row hrow
    rw [hdrop, ← List.map_dropLast] at hrow
    rcases List.mem_map.mp hrow with ⟨r, hr, hre⟩
    rw [← hre, List.length_map, pairRows_dropLast cryptos r hr]
  · intro hodd
    obtain ⟨x, hx⟩ := pairRows_last_odd cryptos hodd
    refine ⟨cryptoButton x, ?_⟩
    rw [hdrop, getLast?_map_list, hx]
    rfl
  · intro he
    subst he
    exact hkb
